import Mathlib

/-!
# gobyond: frame codec of the BYOND TOPIC client

A shallow embedding of `gobyond.go`.

* A Go `byte` is a `Fin 256`; a Go `string` and a Go `[]byte` are lists of bytes
  (`string(b)` and `[]byte(s)` copy the bytes unchanged).  Every slice built by
  the program has its capacity equal to its length (`make([]byte, n)` and the
  results of slice expressions that are only read), so a slice is modelled by
  its contents and `cap(s) = len(s)`.
* A Go run-time panic (index or slice bounds out of range) is the `error` side
  of `Except Panic`; a Go `error` value is a `GoError`.
* `uint16` values are naturals reduced modulo `2 ^ 16`.
* `strconv.FormatFloat` belongs to the Go standard library; the decode step
  takes it as the parameter `formatFloat`, from the bits of a `float32` to the
  bytes of the formatted text.
-/

namespace Gobyond

/-- A Go `byte`. -/
abbrev Byte := Fin 256

/-- A Go `string`: an immutable sequence of bytes. -/
abbrev GoString := List Byte

/-- Go run-time panics raised by indexing and slicing. -/
inductive Panic where
  /-- Raised by `s[i]` with `i >= len(s)`: index out of range [i] with length n. -/
  | indexOutOfRange (index length : Nat)
  /-- Raised by `s[lo:hi]` with `hi > cap(s)`: slice bounds out of range [:hi] with capacity c. -/
  | sliceHighOutOfRange (high capacity : Nat)
  /-- Raised by `s[lo:hi]` with `lo > hi`: slice bounds out of range [lo:hi]. -/
  | sliceLowAboveHigh (low high : Nat)
  deriving DecidableEq, Repr

deriving instance DecidableEq for Except

/-- A Go `error` value, identified by its message. -/
structure GoError where
  /-- The text returned by `Error()`. -/
  msg : String
  deriving DecidableEq, Repr

/-- Go `errors.New`. -/
def errorsNew (text : String) : GoError := ⟨text⟩

/-- Conversion `byte(v)` of an unsigned integer: the low eight bits. -/
def byte (v : Nat) : Byte := ⟨v % 256, Nat.mod_lt v (by decide)⟩

/-- Conversion `uint16(v)` of a non-negative integer: the low sixteen bits. -/
def uint16 (v : Nat) : Nat := v % 65536

/-- Go `make([]byte, n)`: `n` zero bytes. -/
def make (n : Nat) : List Byte := List.replicate n 0

/-- Index expression `s[i]`. -/
def index (s : List Byte) (i : Nat) : Except Panic Byte :=
  match s.get? i with
  | some b => .ok b
  | none => .error (.indexOutOfRange i s.length)

/-- Slice expression `s[lo:hi]` on a slice whose capacity equals its length. -/
def sliceExpr (s : List Byte) (lo hi : Nat) : Except Panic (List Byte) :=
  if s.length < hi then .error (.sliceHighOutOfRange hi s.length)
  else if hi < lo then .error (.sliceLowAboveHigh lo hi)
  else .ok ((s.take hi).drop lo)

/-- Go `binary.BigEndian.PutUint16(b, v)`: bounds check on `b[1]`, then
`b[0] = byte(v >> 8)` and `b[1] = byte(v)`. -/
def putUint16 (b : List Byte) (v : Nat) : Except Panic (List Byte) :=
  if 1 < b.length then .ok ((b.set 0 (byte (v / 256))).set 1 (byte v))
  else .error (.indexOutOfRange 1 b.length)

/-- Go `binary.BigEndian.Uint16(b)`: bounds check on `b[1]`, then
`uint16(b[1]) | uint16(b[0])<<8`. -/
def bigEndianUint16 (b : List Byte) : Except Panic Nat :=
  match b with
  | b0 :: b1 :: _ => .ok (b0.val * 256 + b1.val)
  | _ => .error (.indexOutOfRange 1 b.length)

/-- Go `binary.BigEndian.Uint32(b)`: bounds check on `b[3]`, then the four
bytes combined most significant first. -/
def bigEndianUint32 (b : List Byte) : Except Panic Nat :=
  match b with
  | b0 :: b1 :: b2 :: b3 :: _ =>
      .ok (b0.val * 16777216 + b1.val * 65536 + b2.val * 256 + b3.val)
  | _ => .error (.indexOutOfRange 3 b.length)

/-- Source `encode` (gobyond.go, lines 14-24). -/
def encode (payload : GoString) : Except Panic (List Byte) := do
  let request : List Byte := [0x00, 0x83]
  let short := uint16 (payload.length + 6)
  let expectedDataLength := make 2
  let expectedDataLength ← putUint16 expectedDataLength short
  let request := request ++ expectedDataLength
  let request := request ++ [0x00, 0x00, 0x00, 0x00, 0x00]
  let request := request ++ payload
  let request := request ++ [0x00]
  return request

/-- Source `isResponseByond` (lines 26-28); `&&` evaluates its right operand
only when the left one is true. -/
def isResponseByond (response : List Byte) : Except Panic Bool := do
  let b0 ← index response 0
  if b0 == 0x00 then
    let b1 ← index response 1
    return b1 == 0x83
  else
    return false

/-- Source `isResponseBodyASCII` (lines 30-32). -/
def isResponseBodyASCII (response : List Byte) : Except Panic Bool := do
  let b4 ← index response 4
  return b4 == 0x06

/-- Source `isResponseBodyFloat` (lines 34-36). -/
def isResponseBodyFloat (response : List Byte) : Except Panic Bool := do
  let b4 ← index response 4
  return b4 == 0x06

/-- Source `decodeBigEndianFloat` (lines 38-41); a `float32` is represented by
its bits, so `math.Float32frombits` is the identity. -/
def decodeBigEndianFloat (floatBytes : List Byte) : Except Panic Nat := do
  let bits ← bigEndianUint32 floatBytes
  return bits

/-- The decode step of `Client.Get` (lines 104-119), applied to the read
buffer `res`.  The result is the pair returned by `Get`; `5+size` is computed
in `uint16`. -/
def decodeStep (formatFloat : Nat → GoString) (res : List Byte) :
    Except Panic (GoString × Option GoError) := do
  if !(← isResponseByond res) then
    let err := errorsNew "Response was not in byond format"
    return ([], some err)
  if (← isResponseBodyASCII res) then
    let size ← bigEndianUint16 (← sliceExpr res 2 4)
    let body ← sliceExpr res 5 (uint16 (5 + size))
    return (body, none)
  else if (← isResponseBodyFloat res) then
    let float ← decodeBigEndianFloat (← sliceExpr res 5 9)
    let floatString := formatFloat float
    return (floatString, none)
  return ([], some (errorsNew "Unknown content identifier"))

/-- The bytes of an ASCII text literal, as a Go string. -/
def ascii (s : String) : GoString := s.toList.map (fun c => byte c.toNat)

/-- A read buffer of `Get`: `make([]byte, 1024)` with the received bytes
`received` copied to its start by `conn.Read`. -/
def readBuffer (received : List Byte) : List Byte :=
  (received ++ make (1024 - received.length)).take 1024

/-- The decode step with the float branch deleted, as the specification
describes the reachable behaviour: marker check, then the ASCII slice when the
tag is `0x06`, otherwise the unknown-content error. -/
def decodeStepWithoutFloat (res : List Byte) : Except Panic (GoString × Option GoError) := do
  if !(← isResponseByond res) then
    return ([], some (errorsNew "Response was not in byond format"))
  if (← isResponseBodyASCII res) then
    let size ← bigEndianUint16 (← sliceExpr res 2 4)
    let body ← sliceExpr res 5 (uint16 (5 + size))
    return (body, none)
  return ([], some (errorsNew "Unknown content identifier"))

/-- A Go `map[string]V`: a list of entries; a well-formed map has pairwise
distinct keys, and the order of the list is the order in which a `range` loop
visits the entries. -/
abbrev GoMap (ν : Type) := List (GoString × ν)

/-- The keys of a map are pairwise distinct. -/
abbrev distinctKeys {ν : Type} (m : GoMap ν) : Prop := (m.map Prod.fst).Nodup

/-- Map index expression `m[key]` on a `map[string]string`: the value stored
under `key`, or the zero value `""` when the key is absent. -/
def mapIndex (m : GoMap GoString) (key : GoString) : GoString :=
  match m.lookup key with
  | some v => v
  | none => []

/-- Map assignment `m[key] = v`. -/
def mapAssign {ν : Type} (m : GoMap ν) (key : GoString) (v : ν) : GoMap ν :=
  (key, v) :: m.filter (fun e => e.1 != key)

/-- Index expression `s[i]` on a `[]string`. -/
def indexStrings (s : List GoString) (i : Nat) : Except Panic GoString :=
  match s.get? i with
  | some v => .ok v
  | none => .error (.indexOutOfRange i s.length)

/-- Source `Status` (lines 141-164). -/
structure Status where
  Version : GoString
  Mode : GoString
  Respawn : GoString
  Enter : GoString
  Vote : GoString
  Ai : GoString
  Host : GoString
  RoundID : GoString
  Players : GoString
  Revision : GoString
  RevisionDate : GoString
  Admins : GoString
  GameState : GoString
  MapName : GoString
  SecurityLevel : GoString
  RoundDuration : GoString
  TimeDilationCurrent : GoString
  TimeDilationAvg : GoString
  TimeDilationAvgSlow : GoString
  TimeDilationAvgFast : GoString
  ShuttleMode : GoString
  ShuttleTimer : GoString
  deriving DecidableEq, Repr

/-- Source `parseStatus` (lines 43-68); the returned pointer is never nil, so
the result is the record itself. -/
def parseStatus (fields : GoMap GoString) : Status :=
  { Version := mapIndex fields (ascii "version")
    Mode := mapIndex fields (ascii "mode")
    Respawn := mapIndex fields (ascii "respawn")
    Enter := mapIndex fields (ascii "enter")
    Vote := mapIndex fields (ascii "vote")
    Ai := mapIndex fields (ascii "ai")
    Host := mapIndex fields (ascii "host")
    RoundID := mapIndex fields (ascii "round_id")
    Players := mapIndex fields (ascii "players")
    Revision := mapIndex fields (ascii "revision")
    RevisionDate := mapIndex fields (ascii "revision_date")
    Admins := mapIndex fields (ascii "admins")
    GameState := mapIndex fields (ascii "gamestate")
    MapName := mapIndex fields (ascii "map_name")
    SecurityLevel := mapIndex fields (ascii "security_level")
    RoundDuration := mapIndex fields (ascii "round_duration")
    TimeDilationCurrent := mapIndex fields (ascii "time_dilation_current")
    TimeDilationAvg := mapIndex fields (ascii "time_dilation_avg")
    TimeDilationAvgSlow := mapIndex fields (ascii "time_dilation_avg_slow")
    TimeDilationAvgFast := mapIndex fields (ascii "time_dilation_avg_fast")
    ShuttleMode := mapIndex fields (ascii "shuttle_mode")
    ShuttleTimer := mapIndex fields (ascii "shuttle_timer") }

/-- The 22 status keys named by the specification, each with the record field
it is bound to. -/
def statusTable : List (String × (Status → GoString)) :=
  [("version", Status.Version), ("mode", Status.Mode), ("respawn", Status.Respawn),
   ("enter", Status.Enter), ("vote", Status.Vote), ("ai", Status.Ai), ("host", Status.Host),
   ("round_id", Status.RoundID), ("players", Status.Players), ("revision", Status.Revision),
   ("revision_date", Status.RevisionDate), ("admins", Status.Admins),
   ("gamestate", Status.GameState), ("map_name", Status.MapName),
   ("security_level", Status.SecurityLevel), ("round_duration", Status.RoundDuration),
   ("time_dilation_current", Status.TimeDilationCurrent),
   ("time_dilation_avg", Status.TimeDilationAvg),
   ("time_dilation_avg_slow", Status.TimeDilationAvgSlow),
   ("time_dilation_avg_fast", Status.TimeDilationAvgFast),
   ("shuttle_mode", Status.ShuttleMode), ("shuttle_timer", Status.ShuttleTimer)]

/-- The record with every field the empty string. -/
def emptyStatus : Status :=
  ⟨[], [], [], [], [], [], [], [], [], [], [], [], [], [], [], [], [], [], [], [], [], []⟩

/-- Source `Client` (lines 70-73); the timeout is a duration in nanoseconds. -/
structure Client where
  Address : GoString
  timeout : Nat
  deriving DecidableEq, Repr

/-- The outcomes of the transport calls made by `Get`, taken as inputs. -/
structure Transport where
  /-- The error of `net.Dial("tcp", address)`, `none` when the connection opens. -/
  dial : GoString → Option GoError
  /-- The error of `conn.Write(request)`. -/
  write : List Byte → Option GoError
  /-- The bytes `conn.Read` copies into the buffer, and its error. -/
  read : List Byte × Option GoError

/-- The transport calls `Get` performs, in order. -/
inductive Event where
  | dial (address : GoString)
  | write (request : List Byte)
  | setDeadline (timeout : Nat)
  | read
  | close
  deriving DecidableEq, Repr

/-- Source `Client.Get` (lines 81-120): the value returned (or the panic) and
the transport calls performed.  The deferred `conn.Close()` runs on every exit
after a successful dial. -/
def Client.Get (formatFloat : Nat → GoString) (net : Transport) (client : Client)
    (query : GoString) : Except Panic (GoString × Option GoError) × List Event :=
  match net.dial client.Address with
  | some err => (.ok ([], some err), [.dial client.Address])
  | none =>
    let body : Except Panic (GoString × Option GoError) × List Event :=
      match encode query with
      | .error p => (.error p, [])
      | .ok request =>
        match net.write request with
        | some err => (.ok ([], some err), [.write request])
        | none =>
          match net.read with
          | (_, some err) =>
            (.ok ([], some err), [.write request, .setDeadline client.timeout, .read])
          | (received, none) =>
            (decodeStep formatFloat (readBuffer received),
              [.write request, .setDeadline client.timeout, .read])
    (body.1, [.dial client.Address] ++ body.2 ++ [.close])

/-- Go `map[string][]string`, the type `url.Values`. -/
abbrev Values := GoMap (List GoString)

/-- The body of the flattening loop of `GetStatus` (line 133):
`flattened[key] = value[0]`. -/
def flattenStep (flattened : GoMap GoString) (entry : GoString × List GoString) :
    Except Panic (GoMap GoString) := do
  let first ← indexStrings entry.2 0
  return mapAssign flattened entry.1 first

/-- The flattening loop of `GetStatus` (lines 130-134):
`flattened := make(map[string]string)` followed by
`for key, value := range parsed { flattened[key] = value[0] }`. -/
def flatten (parsed : Values) : Except Panic (GoMap GoString) :=
  parsed.foldlM flattenStep []

/-- Source `Client.GetStatus` (lines 122-139).  `url.ParseQuery` belongs to the
Go standard library and is the parameter `parseQuery`, returning the parsed
values and its error; a nil `*Status` is `none`. -/
def Client.GetStatus (formatFloat : Nat → GoString)
    (parseQuery : GoString → Values × Option GoError) (net : Transport) (client : Client) :
    Except Panic (Option Status × Option GoError) × List Event :=
  match Client.Get formatFloat net client (ascii "?status") with
  | (.error p, trace) => (.error p, trace)
  | (.ok (_, some err), trace) => (.ok (none, some err), trace)
  | (.ok (response, none), trace) =>
    let parsed := (parseQuery response).1
    match flatten parsed with
    | .error p => (.error p, trace)
    | .ok flattened =>
      let status := parseStatus flattened
      (.ok (some status, none), trace)

/-! ## Evaluation lemmas -/

set_option maxRecDepth 100000

/-- The frame built by `encode`, with the length bytes written out. -/
theorem encode_eq (payload : GoString) :
    encode payload = .ok ([0x00, 0x83, byte (uint16 (payload.length + 6) / 256),
      byte (uint16 (payload.length + 6)), 0x00, 0x00, 0x00, 0x00, 0x00] ++ payload ++ [0x00]) := by
  simp [encode, putUint16, make, bind, Except.bind, pure, Except.pure]

/-- A slice expression with bounds in range returns the selected bytes. -/
theorem sliceExpr_ok (s : List Byte) (lo hi : Nat) (h1 : lo ≤ hi) (h2 : hi ≤ s.length) :
    sliceExpr s lo hi = .ok ((s.take hi).drop lo) := by
  unfold sliceExpr
  rw [if_neg (by omega), if_neg (by omega)]

/-- A buffer of at least five bytes starts with its five header bytes. -/
theorem exists_header (res : List Byte) (h : 5 ≤ res.length) :
    ∃ b0 b1 b2 b3 b4 rest, res = b0 :: b1 :: b2 :: b3 :: b4 :: rest := by
  match res, h with
  | b0 :: b1 :: b2 :: b3 :: b4 :: rest, _ => exact ⟨b0, b1, b2, b3, b4, rest, rfl⟩

/-- On a buffer of at least two bytes `isResponseByond` compares both marker bytes. -/
theorem isResponseByond_cons (b0 b1 : Byte) (rest : List Byte) :
    isResponseByond (b0 :: b1 :: rest) = .ok (decide (b0 = 0x00 ∧ b1 = 0x83)) := by
  by_cases h0 : b0 = 0x00 <;> by_cases h1 : b1 = 0x83 <;>
    simp [isResponseByond, index, bind, Except.bind, pure, Except.pure, h0, h1]

/-- The decode step on a buffer with a full five-byte header: the marker test,
then the tag test, then the slice `res[5 : 5+size]`. -/
theorem decodeStep_cons (formatFloat : Nat → GoString) (b0 b1 b2 b3 b4 : Byte)
    (rest : List Byte) :
    decodeStep formatFloat (b0 :: b1 :: b2 :: b3 :: b4 :: rest) =
      if b0 = 0x00 ∧ b1 = 0x83 then
        if b4 = 0x06 then
          (sliceExpr (b0 :: b1 :: b2 :: b3 :: b4 :: rest) 5
            (uint16 (5 + (b2.val * 256 + b3.val)))).map (fun body => (body, none))
        else .ok ([], some (errorsNew "Unknown content identifier"))
      else .ok ([], some (errorsNew "Response was not in byond format")) := by
  have hs : ∀ a b c : Byte,
      sliceExpr (a :: b :: b2 :: b3 :: c :: rest) 2 4 = .ok [b2, b3] := by
    intro a b c
    rw [sliceExpr_ok _ _ _ (by omega) (by simp)]
    rfl
  by_cases h0 : b0 = 0x00 <;> by_cases h1 : b1 = 0x83 <;> by_cases h4 : b4 = 0x06 <;>
    simp [decodeStep, isResponseByond, isResponseBodyASCII, isResponseBodyFloat, index,
      hs, bigEndianUint16, bind, Except.bind, pure, Except.pure, Except.map, h0, h1, h4]

/-- With the marker, tag 0x06 and a SIZE field above 1019, the decode step on a
1024-byte buffer ends in a slice-bounds panic. -/
theorem decodeStep_panics_of_large_size (formatFloat : Nat → GoString) (b2 b3 : Byte)
    (rest : List Byte) (hrest : rest.length = 1019) (hsize : 1019 < b2.val * 256 + b3.val) :
    ∃ p : Panic, decodeStep formatFloat (0x00 :: 0x83 :: b2 :: b3 :: 0x06 :: rest) = .error p := by
  rw [decodeStep_cons, if_pos ⟨rfl, rfl⟩, if_pos rfl]
  unfold sliceExpr
  by_cases hwrap : 5 + (b2.val * 256 + b3.val) < 65536
  · have hu : uint16 (5 + (b2.val * 256 + b3.val)) = 5 + (b2.val * 256 + b3.val) := by
      simp only [uint16]; omega
    rw [hu, if_pos (by simp [hrest]; omega)]
    exact ⟨_, rfl⟩
  · have hu : uint16 (5 + (b2.val * 256 + b3.val)) < 5 := by
      simp only [uint16]; omega
    rw [if_neg (by simp [hrest]; omega), if_pos hu]
    exact ⟨_, rfl⟩

/-! ## Request frames: `encode` -/

/-- Claim C1: for every payload with `len(payload) + 6 <= 65535`, `encode` returns
the frame `00 83`, then two bytes `hi lo` that are the big-endian encoding of
`len(payload) + 6`, then five zero bytes, the payload unchanged and one zero
byte; the frame has `len(payload) + 10` bytes and the length field equals the
number of bytes after the four-byte header. -/
theorem encode_frame_layout (payload : GoString) (h : payload.length + 6 ≤ 65535) :
    ∃ (hi lo : Byte) (frame : List Byte),
      encode payload = .ok frame ∧
      frame = [0x00, 0x83, hi, lo, 0x00, 0x00, 0x00, 0x00, 0x00] ++ payload ++ [0x00] ∧
      hi.val * 256 + lo.val = payload.length + 6 ∧
      frame.length = payload.length + 10 ∧
      hi.val * 256 + lo.val = (frame.drop 4).length := by
  refine ⟨_, _, _, encode_eq payload, rfl, ?_, ?_, ?_⟩
  · simp only [byte, uint16]
    omega
  · simp
  · simp only [byte, uint16]
    simp
    omega

/-- Witness of C1 at the status query `?status`. -/
theorem encode_frame_layout_witness :
    ∃ (hi lo : Byte) (frame : List Byte),
      encode (ascii "?status") = .ok frame ∧
      frame = [0x00, 0x83, hi, lo, 0x00, 0x00, 0x00, 0x00, 0x00] ++ ascii "?status" ++ [0x00] ∧
      hi.val * 256 + lo.val = (ascii "?status").length + 6 ∧
      frame.length = (ascii "?status").length + 10 ∧
      hi.val * 256 + lo.val = (frame.drop 4).length :=
  encode_frame_layout (ascii "?status") (by decide)

/-- Counterexample to C2 as stated: for the empty payload the frame is
`00 83 00 06 00 00 00 00 00 00`, and its bytes from index 7 up to the final
byte are the two reserved bytes `00 00`, not the empty payload; so the slice
starting at index 7 does not return the payload. -/
theorem encode_payload_slice_from_7_counterexample :
    encode [] = .ok [0x00, 0x83, 0x00, 0x06, 0x00, 0x00, 0x00, 0x00, 0x00, 0x00] ∧
    sliceExpr [0x00, 0x83, 0x00, 0x06, 0x00, 0x00, 0x00, 0x00, 0x00, 0x00] 7 (10 - 1) =
      .ok [0x00, 0x00] ∧
    ¬ (∀ (payload : GoString) (frame : List Byte), encode payload = .ok frame →
        sliceExpr frame 7 (frame.length - 1) = .ok payload) := by
  refine ⟨by decide, by decide, fun h => ?_⟩
  have := h [] _ (encode_eq [])
  revert this
  decide

/-- Claim C2, amended: for every payload, the bytes of `encode(payload)` from
index 9 (after the marker, the length field and the five reserved bytes) up to
the end of the frame minus the final terminating byte equal the payload. -/
theorem encode_payload_slice (payload : GoString) :
    ∃ frame, encode payload = .ok frame ∧
      sliceExpr frame 9 (frame.length - 1) = .ok payload := by
  refine ⟨_, encode_eq payload, ?_⟩
  rw [sliceExpr_ok _ _ _ (by simp) (by simp)]
  simp

/-- Claim C3: for every payload of any length `encode` returns a frame (of
`len(payload) + 10` bytes) whose big-endian 16-bit field at bytes 2..3 holds
`(len(payload) + 6) mod 65536`; the field equals `len(payload) + 6` if and only
if `len(payload) <= 65529`. -/
theorem encode_length_field (payload : GoString) :
    ∃ frame, encode payload = .ok frame ∧
      frame.length = payload.length + 10 ∧
      (sliceExpr frame 2 4 >>= bigEndianUint16) = .ok ((payload.length + 6) % 65536) ∧
      ((sliceExpr frame 2 4 >>= bigEndianUint16) = .ok (payload.length + 6) ↔
        payload.length ≤ 65529) := by
  refine ⟨_, encode_eq payload, by simp, ?_⟩
  rw [sliceExpr_ok _ _ _ (by simp) (by simp)]
  have key : ((uint16 (payload.length + 6) / 256) % 256) * 256
      + uint16 (payload.length + 6) % 256 = (payload.length + 6) % 65536 := by
    simp only [uint16]; omega
  simp [bigEndianUint16, bind, Except.bind, byte, key]
  omega

/-! ## Response frames: the decode step of `Get` -/

/-- Claim C4: for every 1024-byte read buffer with marker `00 83`, tag `06` at
index 4 and big-endian SIZE (bytes 2..3) at most 1019, the decode step returns,
with a nil error, the text made of exactly the SIZE bytes at indices
`5 .. 5+SIZE-1` of the buffer. -/
theorem decodeStep_ascii_body (formatFloat : Nat → GoString) (res : List Byte) (s1 s0 : Byte)
    (hlen : res.length = 1024)
    (h0 : res[0]? = some 0x00) (h1 : res[1]? = some 0x83)
    (h2 : res[2]? = some s1) (h3 : res[3]? = some s0) (h4 : res[4]? = some 0x06)
    (hsize : s1.val * 256 + s0.val ≤ 1019) :
    ∃ text : GoString,
      decodeStep formatFloat res = .ok (text, none) ∧
      text = (res.drop 5).take (s1.val * 256 + s0.val) ∧
      text.length = s1.val * 256 + s0.val ∧
      ∀ i, i < s1.val * 256 + s0.val → text[i]? = res[5 + i]? := by
  obtain ⟨b0, b1, b2, b3, b4, rest, rfl⟩ := exists_header res (by omega)
  simp only [List.getElem?_cons_zero, List.getElem?_cons_succ, Option.some.injEq]
    at h0 h1 h2 h3 h4
  subst h0 h1 h2 h3 h4
  have hu : uint16 (5 + (b2.val * 256 + b3.val)) = 5 + (b2.val * 256 + b3.val) := by
    simp only [uint16]; omega
  have hr : rest.length = 1019 := by simpa using hlen
  refine ⟨_, ?_, rfl, ?_, ?_⟩
  · rw [decodeStep_cons, if_pos ⟨rfl, rfl⟩, if_pos rfl, hu,
      sliceExpr_ok _ _ _ (by omega) (by omega)]
    simp [Except.map, List.drop_take]
  · simp [hr, hsize]
  · intro i hi
    rw [Nat.add_comm 5 i]
    simp [List.getElem?_take, hi]

/-- Witness of C4 at the received bytes `00 83 00 05 06 "hello"`. -/
theorem decodeStep_ascii_body_witness :
    ∃ text : GoString,
      decodeStep (fun _ => []) (readBuffer ([0x00, 0x83, 0x00, 0x05, 0x06] ++ ascii "hello")) =
        .ok (text, none) ∧
      text = ((readBuffer ([0x00, 0x83, 0x00, 0x05, 0x06] ++ ascii "hello")).drop 5).take
        ((0x00 : Byte).val * 256 + (0x05 : Byte).val) ∧
      text.length = (0x00 : Byte).val * 256 + (0x05 : Byte).val ∧
      ∀ i, i < (0x00 : Byte).val * 256 + (0x05 : Byte).val →
        text[i]? = (readBuffer ([0x00, 0x83, 0x00, 0x05, 0x06] ++ ascii "hello"))[5 + i]? :=
  decodeStep_ascii_body (fun _ => []) _ 0x00 0x05 (by decide) (by decide) (by decide)
    (by decide) (by decide) (by decide) (by decide)

/-- Counterexample to C5 as stated: on the bytes `00 83 00 0B 06 68 65 6C 6C 6F`
in the zero-filled 1024-byte buffer the decode step does not return the
five-character text `hello` (the tag is `06`, so the float formatter is not
consulted). -/
theorem decodeStep_hello_size_11_counterexample :
    decodeStep (fun _ => [])
        (readBuffer [0x00, 0x83, 0x00, 0x0B, 0x06, 0x68, 0x65, 0x6C, 0x6C, 0x6F])
      ≠ .ok (ascii "hello", none) := by
  decide

/-- Claim C5, amended: decoding `00 83 00 0B 06 68 65 6C 6C 6F` received into the
zero-filled 1024-byte buffer returns the 11-byte text `hello` followed by six
zero bytes, because the SIZE field `00 0B` is 11; with the SIZE field `00 05`
the same body decodes to exactly the five-character text `hello`. -/
theorem decodeStep_hello_size_11 (formatFloat : Nat → GoString) :
    decodeStep formatFloat
        (readBuffer [0x00, 0x83, 0x00, 0x0B, 0x06, 0x68, 0x65, 0x6C, 0x6C, 0x6F])
      = .ok (ascii "hello" ++ [0x00, 0x00, 0x00, 0x00, 0x00, 0x00], none) ∧
    (ascii "hello" ++ [0x00, 0x00, 0x00, 0x00, 0x00, 0x00] : GoString).length = 11 ∧
    decodeStep formatFloat
        (readBuffer [0x00, 0x83, 0x00, 0x05, 0x06, 0x68, 0x65, 0x6C, 0x6C, 0x6F])
      = .ok (ascii "hello", none) := by
  refine ⟨?_, by decide, ?_⟩
  · have h : readBuffer [0x00, 0x83, 0x00, 0x0B, 0x06, 0x68, 0x65, 0x6C, 0x6C, 0x6F] =
        0x00 :: 0x83 :: 0x00 :: 0x0B :: 0x06 :: ([0x68, 0x65, 0x6C, 0x6C, 0x6F] ++ make 1014) := by
      decide
    rw [h, decodeStep_cons]
    decide
  · have h : readBuffer [0x00, 0x83, 0x00, 0x05, 0x06, 0x68, 0x65, 0x6C, 0x6C, 0x6F] =
        0x00 :: 0x83 :: 0x00 :: 0x05 :: 0x06 :: ([0x68, 0x65, 0x6C, 0x6C, 0x6F] ++ make 1014) := by
      decide
    rw [h, decodeStep_cons]
    decide

/-- Claim C6, the code at the failing inputs: with marker `00 83` and tag `06`
in the 1024-byte buffer, SIZE = 1020 (`03 FC`) makes `res[5 : 5+size]` panic with
slice bounds out of range `[:1025]` with capacity 1024, and SIZE = 65535
(`FF FF`) wraps `5+size` to 4 and panics with slice bounds out of range `[5:4]`;
no (text, error) pair is returned. -/
theorem decodeStep_panics_size_1020 (formatFloat : Nat → GoString) :
    decodeStep formatFloat (readBuffer [0x00, 0x83, 0x03, 0xFC, 0x06]) =
      .error (.sliceHighOutOfRange 1025 1024) ∧
    decodeStep formatFloat (readBuffer [0x00, 0x83, 0xFF, 0xFF, 0x06]) =
      .error (.sliceLowAboveHigh 5 4) := by
  constructor
  · have h : readBuffer [0x00, 0x83, 0x03, 0xFC, 0x06] =
        0x00 :: 0x83 :: 0x03 :: 0xFC :: 0x06 :: make 1019 := by decide
    rw [h, decodeStep_cons]
    decide
  · have h : readBuffer [0x00, 0x83, 0xFF, 0xFF, 0x06] =
        0x00 :: 0x83 :: 0xFF :: 0xFF :: 0x06 :: make 1019 := by decide
    rw [h, decodeStep_cons]
    decide

/-- Claim C7: for every response buffer of at least two bytes, `isResponseByond`
returns (without panic) a boolean that is true if and only if byte 0 is `00`
and byte 1 is `83`. -/
theorem isResponseByond_iff_marker (response : List Byte) (h : 2 ≤ response.length) :
    ∃ r : Bool, isResponseByond response = .ok r ∧
      (r = true ↔ response[0]? = some 0x00 ∧ response[1]? = some 0x83) := by
  match response, h with
  | b0 :: b1 :: rest, _ =>
    refine ⟨_, isResponseByond_cons b0 b1 rest, ?_⟩
    simp

/-- Witness of C7 at the five header bytes `00 83 00 05 06`. -/
theorem isResponseByond_iff_marker_witness :
    ∃ r : Bool, isResponseByond [0x00, 0x83, 0x00, 0x05, 0x06] = .ok r ∧
      (r = true ↔ ([0x00, 0x83, 0x00, 0x05, 0x06] : List Byte)[0]? = some 0x00 ∧
        ([0x00, 0x83, 0x00, 0x05, 0x06] : List Byte)[1]? = some 0x83) :=
  isResponseByond_iff_marker [0x00, 0x83, 0x00, 0x05, 0x06] (by decide)

/-- Counterexample to C8 as stated: on the empty buffer `isResponseByond` panics
with index out of range `[0]` with length 0 instead of returning false. -/
theorem isResponseByond_empty_panics_counterexample :
    isResponseByond [] = .error (.indexOutOfRange 0 0) ∧ isResponseByond [] ≠ .ok false := by
  decide

/-- Claim C8, amended: for every response buffer shorter than two bytes,
`isResponseByond` never returns true; it returns false exactly when the buffer
is a single byte different from `00` (byte 1 is then not read), and it panics
with an index out of range on the empty buffer (index 0) and on the one-byte
buffer `00` (index 1). -/
theorem isResponseByond_short (response : List Byte) (h : response.length < 2) :
    isResponseByond response ≠ .ok true ∧
    (isResponseByond response = .ok false ↔ ∃ b : Byte, response = [b] ∧ b ≠ 0x00) ∧
    (response = [] → isResponseByond response = .error (.indexOutOfRange 0 0)) ∧
    (response = [0x00] → isResponseByond response = .error (.indexOutOfRange 1 1)) := by
  match response, h with
  | [], _ => decide
  | [b], _ =>
    by_cases hb : b = 0x00
    · subst hb
      refine ⟨by decide, ?_, by simp, fun _ => by decide⟩
      simp
      decide
    · simp [isResponseByond, index, bind, Except.bind, pure, Except.pure, hb]

/-- Witness of C8 (amended) at the one-byte buffer `01`. -/
theorem isResponseByond_short_witness :
    isResponseByond [0x01] ≠ .ok true ∧
    (isResponseByond [0x01] = .ok false ↔ ∃ b : Byte, [0x01] = [b] ∧ b ≠ 0x00) ∧
    (([0x01] : List Byte) = [] → isResponseByond [0x01] = .error (.indexOutOfRange 0 0)) ∧
    (([0x01] : List Byte) = [0x00] →
      isResponseByond [0x01] = .error (.indexOutOfRange 1 1)) :=
  isResponseByond_short [0x01] (by decide)

/-- Claim C9: for every 1024-byte read buffer whose first two bytes are not
`00 83`, the decode step returns the empty string together with the error
`Response was not in byond format`, whatever the other bytes are. -/
theorem decodeStep_not_byond (formatFloat : Nat → GoString) (res : List Byte)
    (hlen : res.length = 1024)
    (hmarker : ¬ (res[0]? = some 0x00 ∧ res[1]? = some 0x83)) :
    decodeStep formatFloat res =
      .ok ([], some (errorsNew "Response was not in byond format")) := by
  obtain ⟨b0, b1, b2, b3, b4, rest, rfl⟩ := exists_header res (by omega)
  simp only [List.getElem?_cons_zero, List.getElem?_cons_succ, Option.some.injEq] at hmarker
  rw [decodeStep_cons, if_neg hmarker]

/-- Witness of C9 at a reply that starts with the text `HTTP/1.1 400 Bad Request`. -/
theorem decodeStep_not_byond_witness :
    decodeStep (fun _ => []) (readBuffer (ascii "HTTP/1.1 400 Bad Request")) =
      .ok ([], some (errorsNew "Response was not in byond format")) :=
  decodeStep_not_byond (fun _ => []) (readBuffer (ascii "HTTP/1.1 400 Bad Request"))
    (by decide) (by decide)

/-- Claim C10: for every 1024-byte read buffer with marker `00 83`, the decode
step returns the empty string with the error `Unknown content identifier` if
and only if the tag byte at index 4 differs from `06`. -/
theorem decodeStep_unknown_iff (formatFloat : Nat → GoString) (res : List Byte) (tag : Byte)
    (hlen : res.length = 1024)
    (h0 : res[0]? = some 0x00) (h1 : res[1]? = some 0x83) (h4 : res[4]? = some tag) :
    decodeStep formatFloat res = .ok ([], some (errorsNew "Unknown content identifier")) ↔
      tag ≠ 0x06 := by
  obtain ⟨b0, b1, b2, b3, b4, rest, rfl⟩ := exists_header res (by omega)
  simp only [List.getElem?_cons_zero, List.getElem?_cons_succ, Option.some.injEq] at h0 h1 h4
  subst h0 h1 h4
  rw [decodeStep_cons, if_pos ⟨rfl, rfl⟩]
  by_cases ht : b4 = 0x06
  · rw [if_pos ht]
    simp only [ht, ne_eq, not_true_eq_false, iff_false]
    generalize sliceExpr _ 5 _ = r
    cases r <;> simp [Except.map]
  · rw [if_neg ht]
    simp [ht]

/-- Witness of C10 at tag `01`: the buffer `00 83 00 05 01 68 65 6C 6C 6F` yields
the error `Unknown content identifier`. -/
theorem decodeStep_unknown_iff_witness :
    decodeStep (fun _ => [])
        (readBuffer [0x00, 0x83, 0x00, 0x05, 0x01, 0x68, 0x65, 0x6C, 0x6C, 0x6F]) =
      .ok ([], some (errorsNew "Unknown content identifier")) :=
  (decodeStep_unknown_iff (fun _ => [])
    (readBuffer [0x00, 0x83, 0x00, 0x05, 0x01, 0x68, 0x65, 0x6C, 0x6C, 0x6F]) 0x01
    (by decide) (by decide) (by decide) (by decide)).mpr (by decide)

/-! ## The float branch and round trips -/

/-- The read buffer of a reply that starts with a five-byte header. -/
theorem readBuffer_header (b0 b1 b2 b3 b4 : Byte) (body : List Byte)
    (h : body.length ≤ 1019) :
    readBuffer (b0 :: b1 :: b2 :: b3 :: b4 :: body) =
      b0 :: b1 :: b2 :: b3 :: b4 :: (body ++ make (1019 - body.length)) := by
  have h1 : 1024 - (body.length + 1 + 1 + 1 + 1 + 1) = 1019 - body.length := by omega
  simp only [readBuffer, List.length_cons, h1, List.cons_append]
  rw [List.take_of_length_le]
  simp [make]
  omega

/-- Claim C11: the float test and the ASCII test of a buffer are the same
computation, so the float branch of the decode step is never taken: on every
buffer, of any length, the decode step equals the decoder with the float branch
deleted (marker check, ASCII slice when the tag is `06`, otherwise the
unknown-content error), panics included and whatever the float formatter. -/
theorem decodeStep_float_branch_unreachable :
    (∀ res : List Byte, isResponseBodyFloat res = isResponseBodyASCII res) ∧
    ∀ (formatFloat : Nat → GoString) (res : List Byte),
      decodeStep formatFloat res = decodeStepWithoutFloat res := by
  refine ⟨fun _ => rfl, fun formatFloat res => ?_⟩
  unfold decodeStep decodeStepWithoutFloat
  cases hb : isResponseByond res with
  | error p => rfl
  | ok byond =>
    cases byond with
    | false => rfl
    | true =>
      have hf : isResponseBodyFloat res = isResponseBodyASCII res := rfl
      cases ha : isResponseBodyASCII res with
      | error p => simp [bind, Except.bind, ha]
      | ok t =>
        cases t with
        | true => simp [bind, Except.bind, ha]
        | false => simp [bind, Except.bind, ha, hf, pure, Except.pure]

/-- Claim C12: for every text body of at most 1019 bytes, the frame
`00 83 hi lo 06 body`, where `hi lo` is the big-endian 16-bit encoding of the
body length, received into the zero-filled 1024-byte buffer, is decoded to
exactly the body with a nil error. -/
theorem decodeStep_ascii_round_trip (formatFloat : Nat → GoString) (body : GoString)
    (hi lo : Byte) (hsize : hi.val * 256 + lo.val = body.length)
    (hlen : body.length ≤ 1019) :
    decodeStep formatFloat (readBuffer ([0x00, 0x83, hi, lo, 0x06] ++ body)) =
      .ok (body, none) := by
  have hu : uint16 (5 + (hi.val * 256 + lo.val)) = 5 + body.length := by
    simp only [uint16]; omega
  show decodeStep formatFloat (readBuffer (0x00 :: 0x83 :: hi :: lo :: 0x06 :: body)) = _
  rw [readBuffer_header _ _ _ _ _ _ hlen, decodeStep_cons, if_pos ⟨rfl, rfl⟩, if_pos rfl, hu,
    sliceExpr_ok _ _ _ (by omega) (by simp [make]; omega)]
  simp [Except.map, Nat.add_comm 5 body.length]

/-- Witness of C12 at the body `hello`. -/
theorem decodeStep_ascii_round_trip_witness :
    decodeStep (fun _ => []) (readBuffer ([0x00, 0x83, 0x00, 0x05, 0x06] ++ ascii "hello")) =
      .ok (ascii "hello", none) :=
  decodeStep_ascii_round_trip (fun _ => []) (ascii "hello") 0x00 0x05 (by decide) (by decide)

/-- Counterexample to C13 as stated: the frame `00 83 00 04 06 3F 80 00 00`
(tag `06`, SIZE 4, body the big-endian single-precision encoding of 1.0) is not
decoded to the text `1`, even with a float formatter that answers `1`: the
result is the four raw body bytes `3F 80 00 00`. -/
theorem decodeStep_float_frame_counterexample :
    decodeStep (fun _ => ascii "1")
        (readBuffer [0x00, 0x83, 0x00, 0x04, 0x06, 0x3F, 0x80, 0x00, 0x00]) =
      .ok ([0x3F, 0x80, 0x00, 0x00], none) ∧
    decodeStep (fun _ => ascii "1")
        (readBuffer [0x00, 0x83, 0x00, 0x04, 0x06, 0x3F, 0x80, 0x00, 0x00]) ≠
      .ok (ascii "1", none) := by
  have hb : readBuffer [0x00, 0x83, 0x00, 0x04, 0x06, 0x3F, 0x80, 0x00, 0x00] =
      0x00 :: 0x83 :: 0x00 :: 0x04 :: 0x06 :: ([0x3F, 0x80, 0x00, 0x00] ++ make 1015) := by
    decide
  have h : decodeStep (fun _ => ascii "1")
      (readBuffer [0x00, 0x83, 0x00, 0x04, 0x06, 0x3F, 0x80, 0x00, 0x00]) =
      .ok ([0x3F, 0x80, 0x00, 0x00], none) := by
    rw [hb, decodeStep_cons]
    decide
  refine ⟨h, ?_⟩
  rw [h]
  decide

/-- Claim C13, amended: a frame with marker `00 83`, SIZE 4 and tag `06` whose
body is the four-byte big-endian encoding of a float is decoded through the
ASCII branch: the decode step returns, with a nil error, the text made of the
four body bytes unchanged, whatever the float formatter; the body `3F 80 00 00`
(the float 1.0) decodes to the four-byte text `3F 80 00 00`. -/
theorem decodeStep_float_frame_returns_raw_bytes (formatFloat : Nat → GoString)
    (b0 b1 b2 b3 : Byte) :
    decodeStep formatFloat (readBuffer [0x00, 0x83, 0x00, 0x04, 0x06, b0, b1, b2, b3]) =
      .ok ([b0, b1, b2, b3], none) ∧
    decodeStep formatFloat (readBuffer [0x00, 0x83, 0x00, 0x04, 0x06, 0x3F, 0x80, 0x00, 0x00]) =
      .ok ([0x3F, 0x80, 0x00, 0x00], none) := by
  have key : ∀ c0 c1 c2 c3 : Byte,
      decodeStep formatFloat (readBuffer [0x00, 0x83, 0x00, 0x04, 0x06, c0, c1, c2, c3]) =
        .ok ([c0, c1, c2, c3], none) := by
    intro c0 c1 c2 c3
    have hu : uint16 (5 + ((0x00 : Byte).val * 256 + (0x04 : Byte).val)) = 9 := by decide
    rw [readBuffer_header _ _ _ _ _ _ (by simp), decodeStep_cons, if_pos ⟨rfl, rfl⟩,
      if_pos rfl, hu, sliceExpr_ok _ _ _ (by omega) (by simp [make])]
    simp [Except.map]
  exact ⟨key b0 b1 b2 b3, key 0x3F 0x80 0x00 0x00⟩

/-! ## The status mapper -/

/-- Claim C14: for every key-to-text map, each of the 22 fields of
`parseStatus(m)` equals the value the map holds under that field's key, and is
the empty string when the key is absent; the table lists 22 pairwise distinct
keys.  The map `version: 515, players: 12, mode: secret` gives Version `515`,
Players `12`, Mode `secret` and every other field empty, and the empty map gives
the record with every field empty. -/
theorem parseStatus_fields :
    (∀ (m : GoMap GoString) (entry : String × (Status → GoString)), entry ∈ statusTable →
      entry.2 (parseStatus m) =
        match m.lookup (ascii entry.1) with
        | some v => v
        | none => []) ∧
    statusTable.length = 22 ∧ (statusTable.map Prod.fst).Nodup ∧
    parseStatus [(ascii "version", ascii "515"), (ascii "players", ascii "12"),
        (ascii "mode", ascii "secret")] =
      { emptyStatus with
        Version := ascii "515", Players := ascii "12", Mode := ascii "secret" } ∧
    parseStatus [] = emptyStatus := by
  refine ⟨?_, by decide, by decide, by decide, by decide⟩
  intro m entry hmem
  simp only [statusTable, List.mem_cons, List.mem_singleton, List.not_mem_nil, or_false] at hmem
  rcases hmem with h | h | h | h | h | h | h | h | h | h | h | h | h | h | h | h | h | h | h |
    h | h | h <;> subst h <;> rfl

/-- Claim C15: two maps that agree on the 22 known status keys (same presence
and same value under each) are mapped to equal records, whatever other keys
and values they contain. -/
theorem parseStatus_ignores_unknown_keys (m1 m2 : GoMap GoString)
    (hagree : ∀ key ∈ statusTable.map Prod.fst, m1.lookup (ascii key) = m2.lookup (ascii key)) :
    parseStatus m1 = parseStatus m2 := by
  simp only [parseStatus, mapIndex]
  simp only [statusTable, List.map_cons, List.map_nil, List.mem_cons, List.mem_singleton,
    List.not_mem_nil, or_false, forall_eq_or_imp, forall_eq] at hagree
  obtain ⟨h1, h2, h3, h4, h5, h6, h7, h8, h9, h10, h11, h12, h13, h14, h15, h16, h17, h18,
    h19, h20, h21, h22⟩ := hagree
  rw [h1, h2, h3, h4, h5, h6, h7, h8, h9, h10, h11, h12, h13, h14, h15, h16, h17, h18,
    h19, h20, h21, h22]

/-- Witness of C15: adding the unknown keys `foo` and `Version` to a map does
not change the record. -/
theorem parseStatus_ignores_unknown_keys_witness :
    parseStatus [(ascii "version", ascii "515"), (ascii "players", ascii "12")] =
      parseStatus [(ascii "foo", ascii "bar"), (ascii "version", ascii "515"),
        (ascii "Version", ascii "9"), (ascii "players", ascii "12")] :=
  parseStatus_ignores_unknown_keys _ _ (by decide)

/-! ## Flattening and `GetStatus` -/

/-- Removing the entries of another key does not change what a key is bound to. -/
theorem lookup_filter_ne {ν : Type} (m : GoMap ν) (k key : GoString) (h : key ≠ k) :
    (m.filter (fun e => e.1 != k)).lookup key = m.lookup key := by
  induction m with
  | nil => rfl
  | cons e tl ih =>
    obtain ⟨a, b⟩ := e
    by_cases he : a = k
    · subst he
      have hne : (key == a) = false := by simpa using h
      simp [List.filter_cons, List.lookup_cons, hne, ih]
    · by_cases hk : key = a
      · simp [List.filter_cons, he, List.lookup_cons, hk]
      · have hne : (key == a) = false := by simpa using hk
        simp [List.filter_cons, he, List.lookup_cons, hne, ih]

/-- Looking a key up after a map assignment. -/
theorem lookup_mapAssign {ν : Type} (m : GoMap ν) (k key : GoString) (v : ν) :
    (mapAssign m k v).lookup key = if key = k then some v else m.lookup key := by
  unfold mapAssign
  by_cases h : key = k
  · subst h
    simp [List.lookup_cons]
  · have hb : (key == k) = false := by simpa using h
    rw [List.lookup_cons, hb, if_neg h]
    exact lookup_filter_ne m k key h

/-- A key that is not among the keys of a map is absent from it. -/
theorem lookup_eq_none_of_not_mem {ν : Type} (m : GoMap ν) (key : GoString)
    (h : key ∉ m.map Prod.fst) : m.lookup key = none := by
  induction m with
  | nil => rfl
  | cons e tl ih =>
    simp only [List.map_cons, List.mem_cons, not_or] at h
    have hne : (key == e.1) = false := by simpa using h.1
    obtain ⟨k, v⟩ := e
    simp only [List.lookup_cons, hne]
    exact ih h.2

/-- The flattening loop does not panic when every value sequence is non-empty. -/
theorem foldlM_flattenStep_ok (parsed : Values) (hne : ∀ e ∈ parsed, e.2 ≠ []) :
    ∀ acc : GoMap GoString, ∃ flattened, parsed.foldlM flattenStep acc = .ok flattened := by
  induction parsed with
  | nil => exact fun acc => ⟨acc, rfl⟩
  | cons e tl ih =>
    intro acc
    obtain ⟨k, vs⟩ := e
    cases vs with
    | nil => exact absurd rfl (hne (k, []) (List.mem_cons_self _ _))
    | cons v rest =>
      obtain ⟨fl, hfl⟩ := ih (fun e he => hne e (List.mem_cons_of_mem _ he)) (mapAssign acc k v)
      refine ⟨fl, ?_⟩
      simpa [List.foldlM_cons, flattenStep, indexStrings, bind, Except.bind, pure, Except.pure]
        using hfl

/-- The map built by the flattening loop from a map with distinct keys: each key
of `parsed` is bound to the first value of its sequence, the other keys keep
their binding in the initial map. -/
theorem foldlM_flattenStep_lookup (parsed : Values) (hkeys : distinctKeys parsed) :
    ∀ (acc flattened : GoMap GoString), parsed.foldlM flattenStep acc = .ok flattened →
      ∀ key, flattened.lookup key =
        match parsed.lookup key with
        | some vs => vs.head?
        | none => acc.lookup key := by
  induction parsed with
  | nil =>
    intro acc flattened h key
    simp only [List.foldlM_nil, pure, Except.pure, Except.ok.injEq] at h
    subst h
    rfl
  | cons e tl ih =>
    intro acc flattened h key
    obtain ⟨k, vs⟩ := e
    have hk : k ∉ tl.map Prod.fst ∧ distinctKeys tl := by
      simpa [distinctKeys] using hkeys
    cases vs with
    | nil =>
      simp [List.foldlM_cons, flattenStep, indexStrings, bind, Except.bind] at h
    | cons v rest =>
      have h2 : tl.foldlM flattenStep (mapAssign acc k v) = .ok flattened := by
        simpa [List.foldlM_cons, flattenStep, indexStrings, bind, Except.bind, pure,
          Except.pure] using h
      have ih2 := ih hk.2 _ _ h2 key
      rw [ih2, lookup_mapAssign]
      by_cases hkey : key = k
      · subst hkey
        simp [List.lookup_cons, lookup_eq_none_of_not_mem tl key hk.1]
      · have hne : (key == k) = false := by simpa using hkey
        simp [List.lookup_cons, hne, hkey]

/-- Claim C16: for every parsed mapping with non-empty value sequences, the
flattening loop of `GetStatus` returns a map with exactly the same key set in
which each key is bound to the first value of its sequence; in particular the
Players field of the record is the first value of the `players` sequence. -/
theorem flatten_first_values (parsed : Values) (hkeys : distinctKeys parsed)
    (hne : ∀ e ∈ parsed, e.2 ≠ []) :
    ∃ flattened, flatten parsed = .ok flattened ∧
      (∀ key, (flattened.lookup key).isSome = (parsed.lookup key).isSome) ∧
      (∀ key first rest, parsed.lookup key = some (first :: rest) →
        flattened.lookup key = some first) ∧
      (∀ first rest, parsed.lookup (ascii "players") = some (first :: rest) →
        (parseStatus flattened).Players = first) := by
  obtain ⟨flattened, hfl⟩ := foldlM_flattenStep_ok parsed hne []
  have hlook := foldlM_flattenStep_lookup parsed hkeys [] flattened hfl
  have hfirst : ∀ key first rest, parsed.lookup key = some (first :: rest) →
      flattened.lookup key = some first := by
    intro key first rest h
    rw [hlook key, h]
    rfl
  refine ⟨flattened, hfl, ?_, hfirst, ?_⟩
  · intro key
    rw [hlook key]
    cases hp : parsed.lookup key with
    | none => rfl
    | some vs =>
      cases vs with
      | nil =>
        have hmem : (key, ([] : List GoString)) ∈ parsed := by
          clear hlook hfirst hfl hkeys hne
          induction parsed with
          | nil => simp at hp
          | cons e tl ih =>
            obtain ⟨k, vs⟩ := e
            by_cases hk : key = k
            · subst hk
              simp [List.lookup_cons] at hp
              simp [hp]
            · have hb : (key == k) = false := by simpa using hk
              simp only [List.lookup_cons, hb] at hp
              exact List.mem_cons_of_mem _ (ih hp)
        exact absurd rfl (hne _ hmem)
      | cons v rest => rfl
  · intro first rest h
    simp [parseStatus, mapIndex, hfirst _ _ _ h]

/-- Witness of C16 at the parsed form of `players=12&players=99&mode=secret`. -/
theorem flatten_first_values_witness :
    ∃ flattened,
      flatten [(ascii "players", [ascii "12", ascii "99"]), (ascii "mode", [ascii "secret"])] =
        .ok flattened ∧
      (∀ key, (flattened.lookup key).isSome =
        (List.lookup key [(ascii "players", [ascii "12", ascii "99"]),
          (ascii "mode", [ascii "secret"])]).isSome) ∧
      (∀ key first rest,
        List.lookup key [(ascii "players", [ascii "12", ascii "99"]),
          (ascii "mode", [ascii "secret"])] = some (first :: rest) →
        flattened.lookup key = some first) ∧
      (∀ first rest,
        List.lookup (ascii "players") [(ascii "players", [ascii "12", ascii "99"]),
          (ascii "mode", [ascii "secret"])] = some (first :: rest) →
        (parseStatus flattened).Players = first) :=
  flatten_first_values
    [(ascii "players", [ascii "12", ascii "99"]), (ascii "mode", [ascii "secret"])]
    (by decide) (by decide)

/-- Claim C17: provided the key/value parser returns only non-empty value
sequences (as `url.ParseQuery` does), `GetStatus` returns an error if and only
if `Get("?status")` returns an error, and then it returns that same error with
a nil record; whenever `Get` succeeds, `GetStatus` returns a non-nil record,
built from the pairs the parser returned, and a nil error, whatever error the
parser reported. -/
theorem GetStatus_error_propagation (formatFloat : Nat → GoString)
    (parseQuery : GoString → Values × Option GoError) (net : Transport) (client : Client)
    (hvalues : ∀ text, ∀ e ∈ (parseQuery text).1, e.2 ≠ []) :
    (∀ text err,
      (Client.Get formatFloat net client (ascii "?status")).1 = .ok (text, some err) →
      (Client.GetStatus formatFloat parseQuery net client).1 = .ok (none, some err)) ∧
    (∀ text,
      (Client.Get formatFloat net client (ascii "?status")).1 = .ok (text, none) →
      ∃ flattened, flatten (parseQuery text).1 = .ok flattened ∧
        (Client.GetStatus formatFloat parseQuery net client).1 =
          .ok (some (parseStatus flattened), none)) ∧
    ((∃ status err,
        (Client.GetStatus formatFloat parseQuery net client).1 = .ok (status, some err)) ↔
      ∃ text err,
        (Client.Get formatFloat net client (ascii "?status")).1 = .ok (text, some err)) := by
  have hget : ∀ r, Client.Get formatFloat net client (ascii "?status") = r →
      ((∀ text err, r.1 = .ok (text, some err) →
        (Client.GetStatus formatFloat parseQuery net client).1 = .ok (none, some err)) ∧
      (∀ text, r.1 = .ok (text, none) →
        ∃ flattened, flatten (parseQuery text).1 = .ok flattened ∧
          (Client.GetStatus formatFloat parseQuery net client).1 =
            .ok (some (parseStatus flattened), none)) ∧
      ((∃ status err,
          (Client.GetStatus formatFloat parseQuery net client).1 = .ok (status, some err)) ↔
        ∃ text err, r.1 = .ok (text, some err))) := by
    intro r hr
    obtain ⟨res, trace⟩ := r
    unfold Client.GetStatus
    rw [hr]
    cases res with
    | error p => simp
    | ok v =>
      obtain ⟨text, e⟩ := v
      cases e with
      | some err => simp
      | none =>
        obtain ⟨flattened, hfl⟩ := foldlM_flattenStep_ok (parseQuery text).1 (hvalues text) []
        have hfl2 : flatten (parseQuery text).1 = .ok flattened := hfl
        simp [hfl2]
  exact hget _ rfl

/-- Witness of C17: the reply `00 83 00 0A 06 players=12` with a parser that
returns the pair and also reports an error. -/
theorem GetStatus_error_propagation_witness :
    (∀ text err,
      (Client.Get (fun _ => [])
        ⟨fun _ => none, fun _ => none,
          ([0x00, 0x83, 0x00, 0x0A, 0x06] ++ ascii "players=12", none)⟩
        ⟨ascii "localhost:1337", 500000000⟩ (ascii "?status")).1 = .ok (text, some err) →
      (Client.GetStatus (fun _ => [])
        (fun _ => ([(ascii "players", [ascii "12"])],
          some (errorsNew "invalid semicolon separator in query")))
        ⟨fun _ => none, fun _ => none,
          ([0x00, 0x83, 0x00, 0x0A, 0x06] ++ ascii "players=12", none)⟩
        ⟨ascii "localhost:1337", 500000000⟩).1 = .ok (none, some err)) ∧
    (∀ text,
      (Client.Get (fun _ => [])
        ⟨fun _ => none, fun _ => none,
          ([0x00, 0x83, 0x00, 0x0A, 0x06] ++ ascii "players=12", none)⟩
        ⟨ascii "localhost:1337", 500000000⟩ (ascii "?status")).1 = .ok (text, none) →
      ∃ flattened, flatten [(ascii "players", [ascii "12"])] = .ok flattened ∧
        (Client.GetStatus (fun _ => [])
          (fun _ => ([(ascii "players", [ascii "12"])],
            some (errorsNew "invalid semicolon separator in query")))
          ⟨fun _ => none, fun _ => none,
            ([0x00, 0x83, 0x00, 0x0A, 0x06] ++ ascii "players=12", none)⟩
          ⟨ascii "localhost:1337", 500000000⟩).1 =
          .ok (some (parseStatus flattened), none)) ∧
    ((∃ status err,
        (Client.GetStatus (fun _ => [])
          (fun _ => ([(ascii "players", [ascii "12"])],
            some (errorsNew "invalid semicolon separator in query")))
          ⟨fun _ => none, fun _ => none,
            ([0x00, 0x83, 0x00, 0x0A, 0x06] ++ ascii "players=12", none)⟩
          ⟨ascii "localhost:1337", 500000000⟩).1 = .ok (status, some err)) ↔
      ∃ text err,
        (Client.Get (fun _ => [])
          ⟨fun _ => none, fun _ => none,
            ([0x00, 0x83, 0x00, 0x0A, 0x06] ++ ascii "players=12", none)⟩
          ⟨ascii "localhost:1337", 500000000⟩ (ascii "?status")).1 = .ok (text, some err)) :=
  GetStatus_error_propagation (fun _ => [])
    (fun _ => ([(ascii "players", [ascii "12"])],
      some (errorsNew "invalid semicolon separator in query")))
    ⟨fun _ => none, fun _ => none,
      ([0x00, 0x83, 0x00, 0x0A, 0x06] ++ ascii "players=12", none)⟩
    ⟨ascii "localhost:1337", 500000000⟩
    (by intro _ e he; simp only [List.mem_singleton] at he; subst he; decide)

/-! ## `Get`: transport failures -/

/-- The read buffer always has 1024 bytes. -/
theorem readBuffer_length (received : List Byte) : (readBuffer received).length = 1024 := by
  simp only [readBuffer, make, List.length_take, List.length_append, List.length_replicate]
  omega

/-- Every error result of the decode step carries the empty text. -/
theorem decodeStep_error_text (formatFloat : Nat → GoString) (received : List Byte)
    (text : GoString) (err : GoError)
    (h : decodeStep formatFloat (readBuffer received) = .ok (text, some err)) : text = [] := by
  obtain ⟨b0, b1, b2, b3, b4, rest, hres⟩ :=
    exists_header (readBuffer received) (by rw [readBuffer_length]; omega)
  rw [hres, decodeStep_cons] at h
  by_cases hm : b0 = 0x00 ∧ b1 = 0x83
  · rw [if_pos hm] at h
    by_cases ht : b4 = 0x06
    · rw [if_pos ht] at h
      revert h
      generalize sliceExpr _ 5 _ = r
      cases r <;> simp [Except.map]
    · rw [if_neg ht] at h
      simp only [Except.ok.injEq, Prod.mk.injEq] at h
      exact h.1.symm
  · rw [if_neg hm] at h
    simp only [Except.ok.injEq, Prod.mk.injEq] at h
    exact h.1.symm

/-- Claim C18: with the dial, write and read outcomes of the transport as
inputs, for every query: if the dial fails `Get` returns the empty text and the
dial error and performs no write, read or close; otherwise, if the write of the
encoded request fails, it returns the empty text and the write error without
reading; otherwise, if the read fails, it returns the empty text and the read
error whatever bytes the buffer holds.  On every error result of `Get` the text
is the empty string. -/
theorem Get_transport_errors (formatFloat : Nat → GoString) (net : Transport)
    (client : Client) (query : GoString) :
    ∃ request, encode query = .ok request ∧
      (∀ err, net.dial client.Address = some err →
        Client.Get formatFloat net client query =
          (.ok ([], some err), [.dial client.Address])) ∧
      (∀ err, net.dial client.Address = none → net.write request = some err →
        Client.Get formatFloat net client query =
          (.ok ([], some err), [.dial client.Address, .write request, .close])) ∧
      (∀ received err, net.dial client.Address = none → net.write request = none →
        net.read = (received, some err) →
        Client.Get formatFloat net client query =
          (.ok ([], some err),
            [.dial client.Address, .write request, .setDeadline client.timeout, .read,
              .close])) ∧
      (∀ text err, (Client.Get formatFloat net client query).1 = .ok (text, some err) →
        text = []) := by
  obtain ⟨request, hreq⟩ : ∃ request, encode query = .ok request := ⟨_, encode_eq query⟩
  refine ⟨request, hreq, ?_, ?_, ?_, ?_⟩
  · intro err hd
    simp only [Client.Get, hd]
  · intro err hd hw
    simp only [Client.Get, hd, hreq, hw]
    rfl
  · intro received err hd hw hr
    simp only [Client.Get, hd, hreq, hw, hr]
    rfl
  · intro text err
    unfold Client.Get
    cases hd : net.dial client.Address with
    | some e =>
      simp only [Except.ok.injEq, Prod.mk.injEq]
      exact fun h => h.1.symm
    | none =>
      simp only [hreq]
      cases hw : net.write request with
      | some e =>
        simp only [Except.ok.injEq, Prod.mk.injEq]
        exact fun h => h.1.symm
      | none =>
        cases hr : net.read with
        | mk received rerr =>
          cases rerr with
          | some e =>
            simp only [Except.ok.injEq, Prod.mk.injEq]
            exact fun h => h.1.symm
          | none =>
            simp only
            exact decodeStep_error_text formatFloat received text err

/-! ## `encode` is injective -/

/-- Claim C19: `encode` is injective on all payloads, with or without the 16-bit
length precondition: equal frames come from equal payloads, and the payload of
a frame is its bytes from index 9 up to, not including, the last byte. -/
theorem encode_injective (P Q : GoString) (h : encode P = encode Q) :
    P = Q ∧ ∃ frame, encode P = .ok frame ∧ (frame.take (frame.length - 1)).drop 9 = P := by
  have hrec : ∀ R : GoString, ∃ frame, encode R = .ok frame ∧
      (frame.take (frame.length - 1)).drop 9 = R := by
    intro R
    exact ⟨_, encode_eq R, by simp⟩
  obtain ⟨fp, hp, hp2⟩ := hrec P
  obtain ⟨fq, hq, hq2⟩ := hrec Q
  have hfr : fp = fq := by
    rw [hp, hq] at h
    exact Except.ok.inj h
  refine ⟨?_, fp, hp, hp2⟩
  rw [← hp2, ← hq2, hfr]

/-- Witness of C19 at the status query `?status`. -/
theorem encode_injective_witness :
    ascii "?status" = ascii "?status" ∧
    ∃ frame, encode (ascii "?status") = .ok frame ∧
      (frame.take (frame.length - 1)).drop 9 = ascii "?status" :=
  encode_injective (ascii "?status") (ascii "?status") rfl

end Gobyond
